import Mathlib

/-!
Verification of the manga-app scraper core (src/lib/scrapers) against its
natural-language specification.  The TypeScript sources are shallowly
embedded: pure helpers become Lean functions on `List Char` / `String`,
fallible network calls become `Except String` values supplied as oracles,
and the persisted store becomes an in-memory list of documents.
-/

namespace MangaApp

/-! ## JavaScript string primitives

`String.prototype.trim`, `String.prototype.toLowerCase`,
`String.prototype.includes` restricted to the ASCII fragment the scrapers
actually feed them. -/

/-- Whitespace class used by JavaScript `trim` and `\s` (common ASCII forms). -/
def isJsWs (c : Char) : Bool :=
  c = ' ' || c = '\t' || c = '\n' || c = '\r'

/-- JavaScript `String.prototype.trim` on a character list. -/
def jsTrim (l : List Char) : List Char :=
  ((l.dropWhile isJsWs).reverse.dropWhile isJsWs).reverse

/-- JavaScript `String.prototype.toLowerCase` (ASCII). -/
def toLowerList (l : List Char) : List Char :=
  l.map Char.toLower

/-- JavaScript `String.prototype.includes pat` on character lists. -/
def hasSub (pat : List Char) : List Char → Bool
  | [] => pat.isEmpty
  | c :: rest => pat.isPrefixOf (c :: rest) || hasSub pat rest

/-! ## normalizeStatus (src/lib/scrapers/utils.ts, lines 97-125) -/

/-- The lifecycle status enum produced by `normalizeStatus`. -/
inductive MangaStatus where
  | ongoing
  | completed
  | hiatus
  | cancelled
deriving DecidableEq, Repr

/-- Condition of the first branch of `normalizeStatus`. -/
def statusOngoingHit (n : List Char) : Bool :=
  hasSub "ongoing".toList n || hasSub "publishing".toList n ||
    hasSub "releasing".toList n

/-- Condition of the second branch of `normalizeStatus`. -/
def statusCompletedHit (n : List Char) : Bool :=
  hasSub "completed".toList n || hasSub "finished".toList n

/-- Condition of the third branch of `normalizeStatus`. -/
def statusHiatusHit (n : List Char) : Bool :=
  hasSub "hiatus".toList n || hasSub "on hold".toList n

/-- Condition of the fourth branch of `normalizeStatus`. -/
def statusCancelledHit (n : List Char) : Bool :=
  hasSub "cancelled".toList n || hasSub "discontinued".toList n

/-- Core of `normalizeStatus` on the character list of the input string:
the source lower-cases and trims, then tests substrings in priority order. -/
def normalizeStatusList (l : List Char) : MangaStatus :=
  let n := jsTrim (toLowerList l)
  if statusOngoingHit n then .ongoing
  else if statusCompletedHit n then .completed
  else if statusHiatusHit n then .hiatus
  else if statusCancelledHit n then .cancelled
  else .ongoing

/-- `normalizeStatus` from utils.ts: `undefined` (modelled `none`) and the
empty string are falsy in the `if (!status)` guard and yield `ongoing`. -/
def normalizeStatus (status : Option String) : MangaStatus :=
  match status with
  | none => .ongoing
  | some s =>
    if s.toList.isEmpty then .ongoing
    else normalizeStatusList s.toList

/-- C8: `normalizeStatus` is total and matches substrings of the
lower-cased, trimmed input in priority order: ongoing/publishing/releasing
first, then completed/finished, then hiatus/on hold, then
cancelled/discontinued; absent input or unmatched text defaults to
`ongoing`; in particular `normalizeStatus undefined = ongoing` and
`normalizeStatus "Finished" = completed`. -/
theorem normalizeStatus_priority :
    normalizeStatus none = MangaStatus.ongoing ∧
    normalizeStatus (some "Finished") = MangaStatus.completed ∧
    ∀ s : String,
      (statusOngoingHit (jsTrim (toLowerList s.data)) = true →
        normalizeStatus (some s) = MangaStatus.ongoing) ∧
      (statusOngoingHit (jsTrim (toLowerList s.data)) = false →
        statusCompletedHit (jsTrim (toLowerList s.data)) = true →
        normalizeStatus (some s) = MangaStatus.completed) ∧
      (statusOngoingHit (jsTrim (toLowerList s.data)) = false →
        statusCompletedHit (jsTrim (toLowerList s.data)) = false →
        statusHiatusHit (jsTrim (toLowerList s.data)) = true →
        normalizeStatus (some s) = MangaStatus.hiatus) ∧
      (statusOngoingHit (jsTrim (toLowerList s.data)) = false →
        statusCompletedHit (jsTrim (toLowerList s.data)) = false →
        statusHiatusHit (jsTrim (toLowerList s.data)) = false →
        statusCancelledHit (jsTrim (toLowerList s.data)) = true →
        normalizeStatus (some s) = MangaStatus.cancelled) ∧
      (statusOngoingHit (jsTrim (toLowerList s.data)) = false →
        statusCompletedHit (jsTrim (toLowerList s.data)) = false →
        statusHiatusHit (jsTrim (toLowerList s.data)) = false →
        statusCancelledHit (jsTrim (toLowerList s.data)) = false →
        normalizeStatus (some s) = MangaStatus.ongoing) := by
  refine ⟨rfl, by decide, ?_⟩
  intro s
  by_cases he : s.data = []
  · refine ⟨?_, ?_, ?_, ?_, ?_⟩
    · intro h1; rw [he] at h1; exact absurd h1 (by decide)
    · intro h1 h2; rw [he] at h2; exact absurd h2 (by decide)
    · intro h1 h2 h3; rw [he] at h3; exact absurd h3 (by decide)
    · intro h1 h2 h3 h4; rw [he] at h4; exact absurd h4 (by decide)
    · intro h1 h2 h3 h4
      simp [normalizeStatus, String.toList, he]
  · have hns : normalizeStatus (some s) = normalizeStatusList s.data := by
      simp [normalizeStatus, String.toList, he]
    refine ⟨?_, ?_, ?_, ?_, ?_⟩
    · intro h1
      rw [hns]; simp [normalizeStatusList, h1]
    · intro h1 h2
      rw [hns]; simp [normalizeStatusList, h1, h2]
    · intro h1 h2 h3
      rw [hns]; simp [normalizeStatusList, h1, h2, h3]
    · intro h1 h2 h3 h4
      rw [hns]; simp [normalizeStatusList, h1, h2, h3, h4]
    · intro h1 h2 h3 h4
      rw [hns]; simp [normalizeStatusList, h1, h2, h3, h4]

/-- Witness for C8: the hiatus branch fires on "On Hold". -/
theorem normalizeStatus_priority_witness :
    normalizeStatus (some "On Hold") = MangaStatus.hiatus :=
  ((normalizeStatus_priority.2.2 "On Hold").2.2.1) (by decide) (by decide)
    (by decide)

/-! ## JavaScript number parsing and printing

`parseFloat` followed by `String(...)` are modelled over exact decimal
numerals (optional sign, integer digits, optional `.` and fraction
digits, longest-prefix parse after leading whitespace, `none` for NaN).
JS exponent forms, `Infinity`, and IEEE double rounding lie outside the
model; the chapter-number strings the scrapers feed in are plain
decimals for which this model and JS agree. -/

/-- A parsed JS number in canonical printed form: sign, integer digits
(without leading zeros, empty means 0), fraction digits (without
trailing zeros, empty means no fractional part). -/
structure JSNum where
  neg : Bool
  intPart : List Char
  fracPart : List Char
deriving DecidableEq, Repr

/-- Strip trailing `'0'` digits (canonicalising a fraction part). -/
def dropTrailingZeros (l : List Char) : List Char :=
  (l.reverse.dropWhile (· = '0')).reverse

/-- Consume an optional leading sign, as `parseFloat` does. -/
def parseSign (l : List Char) : Bool × List Char :=
  match l with
  | [] => (false, [])
  | c :: r =>
    if c = '-' then (true, r)
    else if c = '+' then (false, r)
    else (false, c :: r)

/-- Fraction digits after the dot, when present. -/
def parseFrac (s3 : List Char) : List Char :=
  match s3 with
  | '.' :: r => r.takeWhile Char.isDigit
  | _ => []

/-- `parseFloat` on a character list: skip leading whitespace, optional
sign, integer digits, optional `.` plus fraction digits; `none` when no
digit is found (JS `NaN`).  The result is canonicalised exactly the way
JS `String(...)` would print it (`-0` prints as `"0"`). -/
def parseFloatNum (s : List Char) : Option JSNum :=
  let s1 := s.dropWhile isJsWs
  let pr := parseSign s1
  let ip := pr.2.takeWhile Char.isDigit
  let fp := parseFrac (pr.2.drop ip.length)
  if ip.isEmpty && fp.isEmpty then none
  else
    some ⟨pr.1 && !((ip.dropWhile (· = '0')).isEmpty &&
        (dropTrailingZeros fp).isEmpty),
      ip.dropWhile (· = '0'), dropTrailingZeros fp⟩

/-- JS `String(x)` for a finite decimal number. -/
def printNum (n : JSNum) : List Char :=
  (if n.neg then ['-'] else []) ++
    (if n.intPart.isEmpty then ['0'] else n.intPart) ++
    (if n.fracPart.isEmpty then [] else '.' :: n.fracPart)

/-- Decimal digits to a natural number. -/
def digitsToNat (l : List Char) : Nat :=
  l.foldl (fun a c => 10 * a + (c.toNat - '0'.toNat)) 0

/-- The rational value of a parsed JS number. -/
def JSNum.toRat (n : JSNum) : ℚ :=
  let mag : ℚ :=
    (digitsToNat n.intPart : ℚ) +
      (digitsToNat n.fracPart : ℚ) / (10 : ℚ) ^ n.fracPart.length
  if n.neg then -mag else mag

/-- Numerator of the value of a parsed JS number over `denNat`. -/
def JSNum.numInt (n : JSNum) : Int :=
  (if n.neg then -1 else 1) *
    (digitsToNat n.intPart * 10 ^ n.fracPart.length + digitsToNat n.fracPart)

/-- Denominator of the value of a parsed JS number. -/
def JSNum.denNat (n : JSNum) : Nat := 10 ^ n.fracPart.length

/-- Exact numeric strict order on parsed JS numbers (cross
multiplication; agrees with the order of the rational values). -/
def jsNumLt (a b : JSNum) : Bool :=
  decide (a.numInt * (b.denNat : Int) < b.numInt * (a.denNat : Int))

/-! ## normalizeChapterNumber (src/lib/scrapers/utils.ts, lines 88-92) -/

/-- The literal pattern of the regex `/chapter\s*/i`. -/
def chapterTok : List Char := ['c', 'h', 'a', 'p', 't', 'e', 'r']

/-- `String.prototype.replace(/chapter\s*/i, "")`: remove the first
case-insensitive occurrence of `chapter` together with the following
whitespace run; leave the string unchanged when there is none. -/
def replaceChapterOnce : List Char → List Char
  | [] => []
  | c :: rest =>
    if chapterTok.isPrefixOf (toLowerList (c :: rest)) then
      ((c :: rest).drop 7).dropWhile isJsWs
    else
      c :: replaceChapterOnce rest

/-- Core of `normalizeChapterNumber`: trim, strip the first `chapter`
token, then `parseFloat`; on NaN return the cleaned string, otherwise
the printed numeric value. -/
def normChapterList (l : List Char) : List Char :=
  let cleaned := replaceChapterOnce (jsTrim l)
  match parseFloatNum cleaned with
  | some n => printNum n
  | none => cleaned

/-- `normalizeChapterNumber` from utils.ts (string inputs). -/
def normalizeChapterNumber (s : String) : String :=
  String.mk (normChapterList s.data)

/-! ## Character and list helper lemmas -/

theorem ws_not_digit {c : Char} (h : isJsWs c = true) : c.isDigit = false := by
  unfold isJsWs at h
  simp only [Bool.or_eq_true, decide_eq_true_eq] at h
  rcases h with ((rfl | rfl) | rfl) | rfl <;> decide

theorem digit_not_ws {c : Char} (h : c.isDigit = true) : isJsWs c = false := by
  cases hw : isJsWs c with
  | false => rfl
  | true =>
    have hd := ws_not_digit hw
    rw [hd] at h
    exact Bool.noConfusion h

theorem digit_ne {c d : Char} (h : c.isDigit = true)
    (hd : d.isDigit = false) : c ≠ d := by
  intro he
  rw [he, hd] at h
  exact Bool.noConfusion h

theorem digit_toLower {c : Char} (h : c.isDigit = true) : c.toLower = c := by
  simp only [Char.isDigit, Bool.and_eq_true, decide_eq_true_eq] at h
  have h57 : c.toNat ≤ 57 :=
    UInt32.toNat_le_of_le (by decide) h.2
  have hcond : ¬(c.toNat ≥ 65 ∧ c.toNat ≤ 90) := by
    rintro ⟨h65, _⟩
    omega
  simp [Char.toLower, hcond]

theorem dropWhile_eq_self_of_head {p : Char → Bool} {l : List Char}
    (h : ∀ c, l.head? = some c → p c = false) : l.dropWhile p = l := by
  cases l with
  | nil => rfl
  | cons a t =>
    refine List.dropWhile_cons_of_neg ?_
    simp [h a rfl]

theorem dropWhile_eq_self_of_all {p : Char → Bool} {l : List Char}
    (h : ∀ c ∈ l, p c = false) : l.dropWhile p = l :=
  dropWhile_eq_self_of_head (by
    intro c hc
    cases l with
    | nil => exact Option.noConfusion hc
    | cons a t =>
      rw [List.head?_cons, Option.some.injEq] at hc
      exact hc ▸ h a (by simp))

theorem takeWhile_eq_self_of_all {p : Char → Bool} {l : List Char}
    (h : ∀ c ∈ l, p c = true) : l.takeWhile p = l := by
  have := @List.takeWhile_append_of_pos Char p l [] h
  simpa using this

theorem head?_dropWhile_false {p : Char → Bool} {l : List Char} {c : Char}
    (h : (l.dropWhile p).head? = some c) : p c = false := by
  induction l with
  | nil => exact Option.noConfusion h
  | cons a t ih =>
    by_cases hp : p a = true
    · rw [List.dropWhile_cons_of_pos hp] at h
      exact ih h
    · rw [List.dropWhile_cons_of_neg hp, List.head?_cons,
        Option.some.injEq] at h
      rw [← h]
      exact Bool.eq_false_iff.mpr hp

theorem jsTrim_eq_self_of_all {l : List Char}
    (h : ∀ c ∈ l, isJsWs c = false) : jsTrim l = l := by
  unfold jsTrim
  rw [dropWhile_eq_self_of_all h,
    dropWhile_eq_self_of_all (by intro c hc; exact h c (by simpa using hc)),
    List.reverse_reverse]

theorem replaceChapterOnce_eq_self {l : List Char}
    (h : ∀ c ∈ l, Char.toLower c ≠ 'c') : replaceChapterOnce l = l := by
  induction l with
  | nil => rfl
  | cons a t ih =>
    have hne : chapterTok.isPrefixOf (toLowerList (a :: t)) = false := by
      have ha : Char.toLower a ≠ 'c' := h a (by simp)
      simp only [toLowerList, List.map_cons, chapterTok, List.isPrefixOf]
      simp [beq_iff_eq, Ne.symm ha]
    unfold replaceChapterOnce
    rw [hne]
    simp only [Bool.false_eq_true, if_false]
    rw [ih (by intro c hc; exact h c (by simp [hc]))]

/-! ## Canonical numbers and the parse/print round trip -/

/-- Canonical printed form of a JS number: digit lists without leading or
trailing zeros, and a sign only on a nonzero value. -/
structure CanonicalNum (n : JSNum) : Prop where
  intDigits : ∀ c ∈ n.intPart, c.isDigit = true
  fracDigits : ∀ c ∈ n.fracPart, c.isDigit = true
  intLead : n.intPart.head? ≠ some '0'
  fracTrail : n.fracPart.getLast? ≠ some '0'
  negNonzero : n.neg = true → n.intPart ≠ [] ∨ n.fracPart ≠ []

theorem mem_parseFrac {l : List Char} {c : Char} (h : c ∈ parseFrac l) :
    c.isDigit = true := by
  unfold parseFrac at h
  split at h
  · exact List.mem_takeWhile_imp h
  · simp at h

theorem dropTrailingZeros_eq_self {l : List Char}
    (h : l.getLast? ≠ some '0') : dropTrailingZeros l = l := by
  unfold dropTrailingZeros
  rw [dropWhile_eq_self_of_head, List.reverse_reverse]
  intro c hcp
  rw [List.head?_reverse] at hcp
  simp only [decide_eq_false_iff_not]
  intro he
  exact h (he ▸ hcp)

theorem parseFloatNum_canonical {s : List Char} {n : JSNum}
    (h : parseFloatNum s = some n) : CanonicalNum n := by
  simp only [parseFloatNum] at h
  split at h
  · exact absurd h (by simp)
  · rw [Option.some.injEq] at h
    subst h
    refine ⟨?_, ?_, ?_, ?_, ?_⟩
    · intro c hcm
      exact List.mem_takeWhile_imp
        (List.Sublist.mem hcm (List.dropWhile_sublist _))
    · intro c hcm
      simp only [dropTrailingZeros, List.mem_reverse] at hcm
      have : c ∈ (parseFrac _).reverse :=
        List.Sublist.mem hcm (List.dropWhile_sublist _)
      rw [List.mem_reverse] at this
      exact mem_parseFrac this
    · intro hl
      have := head?_dropWhile_false hl
      simp at this
    · intro hl
      simp only [dropTrailingZeros, List.getLast?_reverse] at hl
      have := head?_dropWhile_false hl
      simp at this
    · intro hn
      simp only [Bool.and_eq_true, Bool.not_eq_eq_eq_not, Bool.not_true,
        Bool.and_eq_false_iff] at hn
      rcases hn.2 with h2 | h2 <;>
        [left; right] <;> simpa [List.isEmpty_iff] using h2

theorem parseSign_digit {l : List Char}
    (hl : ∀ c, l.head? = some c → c.isDigit = true) (hne : l ≠ []) :
    parseSign l = (false, l) := by
  cases l with
  | nil => exact absurd rfl hne
  | cons a t =>
    have ha := hl a rfl
    have h1 : a ≠ '-' := digit_ne ha (by decide)
    have h2 : a ≠ '+' := digit_ne ha (by decide)
    simp [parseSign, h1, h2]

theorem printNum_char_ok {n : JSNum} (h : CanonicalNum n) :
    ∀ c ∈ printNum n, isJsWs c = false ∧ Char.toLower c ≠ 'c' := by
  intro c hcm
  unfold printNum at hcm
  rw [List.mem_append, List.mem_append] at hcm
  have hdig : c.isDigit = true ∨ c = '-' ∨ c = '0' ∨ c = '.' := by
    rcases hcm with (hcm | hcm) | hcm
    · split at hcm
      · simp at hcm; right; left; exact hcm
      · simp at hcm
    · split at hcm
      · simp at hcm; right; right; left; exact hcm
      · left; exact h.intDigits c hcm
    · split at hcm
      · simp at hcm
      · rcases List.mem_cons.mp hcm with rfl | hcm
        · right; right; right; rfl
        · left; exact h.fracDigits c hcm
  rcases hdig with hd | rfl | rfl | rfl
  · refine ⟨digit_not_ws hd, ?_⟩
    rw [digit_toLower hd]
    exact digit_ne hd (by decide)
  · exact ⟨by decide, by decide⟩
  · exact ⟨by decide, by decide⟩
  · exact ⟨by decide, by decide⟩

theorem printNum_parse {n : JSNum} (hc : CanonicalNum n) :
    parseFloatNum (printNum n) = some n := by
  obtain ⟨neg, ip, fp⟩ := n
  obtain ⟨hid, hfd, hil, hft, hnz⟩ := hc
  simp only at hid hfd hil hft hnz
  have hI : ∀ c ∈ (if ip.isEmpty then ['0'] else ip), c.isDigit = true := by
    cases ip with
    | nil => intro c hcm; simp at hcm; subst hcm; decide
    | cons a t => simpa using hid
  have hIne : (if ip.isEmpty then ['0'] else ip) ≠ [] := by
    cases ip <;> simp
  have htake :
      ((if ip.isEmpty then ['0'] else ip) ++
        (if fp.isEmpty then [] else '.' :: fp)).takeWhile Char.isDigit =
        (if ip.isEmpty then ['0'] else ip) := by
    rw [List.takeWhile_append_of_pos hI]
    cases fp with
    | nil => simp
    | cons b u =>
      have hceq : (if (b :: u).isEmpty = true then [] else '.' :: b :: u) =
          '.' :: b :: u := by simp
      rw [hceq, List.takeWhile_cons_of_neg (by decide)]
      simp
  have hfrac :
      parseFrac (if fp.isEmpty then [] else '.' :: fp) = fp := by
    cases fp with
    | nil => rfl
    | cons b u =>
      have hceq : (if (b :: u).isEmpty = true then [] else '.' :: b :: u) =
          '.' :: b :: u := by simp
      rw [hceq]
      show (b :: u).takeWhile Char.isDigit = b :: u
      exact takeWhile_eq_self_of_all hfd
  have hdropI : (if ip.isEmpty then ['0'] else ip).dropWhile (· = '0') = ip := by
    cases ip with
    | nil => decide
    | cons a t =>
      have hceq : (if (a :: t).isEmpty = true then ['0'] else a :: t) =
          a :: t := by simp
      rw [hceq]
      refine dropWhile_eq_self_of_head ?_
      intro c hcp
      rw [List.head?_cons, Option.some.injEq] at hcp
      subst hcp
      simp only [decide_eq_false_iff_not]
      intro he
      exact hil (by rw [List.head?_cons, he])
  have hdropF : dropTrailingZeros fp = fp := dropTrailingZeros_eq_self hft
  have hws : (printNum ⟨neg, ip, fp⟩).dropWhile isJsWs = printNum ⟨neg, ip, fp⟩ :=
    dropWhile_eq_self_of_all
      (fun c hcm => (printNum_char_ok ⟨hid, hfd, hil, hft, hnz⟩ c hcm).1)
  cases neg with
  | false =>
    have hsign : parseSign (printNum ⟨false, ip, fp⟩) =
        (false, (if ip.isEmpty then ['0'] else ip) ++
          (if fp.isEmpty then [] else '.' :: fp)) := by
      have hshape : printNum ⟨false, ip, fp⟩ =
          (if ip.isEmpty then ['0'] else ip) ++
            (if fp.isEmpty then [] else '.' :: fp) := by
        simp [printNum]
      rw [hshape]
      refine parseSign_digit ?_
        (fun hx => hIne (List.append_eq_nil.mp hx).1)
      intro c hcp
      cases hhead : (if ip.isEmpty then ['0'] else ip) with
      | nil => exact absurd hhead hIne
      | cons a t =>
        rw [hhead, List.cons_append, List.head?_cons,
          Option.some.injEq] at hcp
        subst hcp
        refine hI a ?_
        rw [hhead]
        exact List.mem_cons_self a t
    have hcond : ((if ip.isEmpty then ['0'] else ip).isEmpty &&
        fp.isEmpty) = false := by
      cases hh : (if ip.isEmpty then ['0'] else ip) with
      | nil => exact absurd hh hIne
      | cons a t => simp
    simp only [parseFloatNum, hws, hsign, htake, List.drop_left, hfrac,
      hdropI, hdropF, hcond]
    simp
  | true =>
    have hshape : printNum ⟨true, ip, fp⟩ =
        '-' :: ((if ip.isEmpty then ['0'] else ip) ++
          (if fp.isEmpty then [] else '.' :: fp)) := by
      simp [printNum]
    have hsign : parseSign (printNum ⟨true, ip, fp⟩) =
        (true, (if ip.isEmpty then ['0'] else ip) ++
          (if fp.isEmpty then [] else '.' :: fp)) := by
      rw [hshape]; simp [parseSign]
    have hcond : ((if ip.isEmpty then ['0'] else ip).isEmpty &&
        fp.isEmpty) = false := by
      cases hh : (if ip.isEmpty then ['0'] else ip) with
      | nil => exact absurd hh hIne
      | cons a t => simp
    have hzero : (ip.isEmpty && fp.isEmpty) = false := by
      rcases hnz rfl with h1 | h1
      · cases ip with
        | nil => exact absurd rfl h1
        | cons a t => simp
      · cases fp with
        | nil => exact absurd rfl h1
        | cons a t => simp
    simp only [parseFloatNum, hws, hsign, htake, List.drop_left, hfrac,
      hdropI, hdropF, hcond, hzero]
    simp

/-! ## C3: idempotency of normalizeChapterNumber -/

theorem normChapterList_idem {l : List Char}
    (h : (parseFloatNum (replaceChapterOnce (jsTrim l))).isSome = true ∨
      (parseFloatNum (replaceChapterOnce (jsTrim l)) = none ∧
        replaceChapterOnce (replaceChapterOnce (jsTrim l)) =
          replaceChapterOnce (jsTrim l) ∧
        jsTrim (replaceChapterOnce (jsTrim l)) =
          replaceChapterOnce (jsTrim l))) :
    normChapterList (normChapterList l) = normChapterList l := by
  rcases h with h | ⟨hn, hr, ht⟩
  · obtain ⟨n, hp⟩ := Option.isSome_iff_exists.mp h
    have hcanon := parseFloatNum_canonical hp
    have h1 : normChapterList l = printNum n := by
      simp only [normChapterList]
      rw [hp]
    rw [h1]
    simp only [normChapterList]
    rw [jsTrim_eq_self_of_all
        (fun c hc => (printNum_char_ok hcanon c hc).1),
      replaceChapterOnce_eq_self
        (fun c hc => (printNum_char_ok hcanon c hc).2),
      printNum_parse hcanon]
  · have h1 : normChapterList l = replaceChapterOnce (jsTrim l) := by
      simp only [normChapterList]
      rw [hn]
    rw [h1]
    simp only [normChapterList]
    rw [ht, hr, hn]

/-- C3 counterexample: `normalizeChapterNumber` is not idempotent.  The
regex `/chapter\s*/i` removes only the first occurrence, so
`"chapter chapter 5"` normalizes to `"chapter 5"`, which normalizes
again to `"5"`. -/
theorem normalizeChapterNumber_not_idempotent :
    normalizeChapterNumber (normalizeChapterNumber "chapter chapter 5") ≠
      normalizeChapterNumber "chapter chapter 5" := by decide

/-- C3 (amended): `normalizeChapterNumber` is idempotent on every input
whose cleaned form (trimmed input with the first case-insensitive
`chapter` token and following whitespace removed) either parses as a
number, or fails to parse while containing no further `chapter` token
and no leading or trailing whitespace.  The unrestricted claim is false
(`normalizeChapterNumber_not_idempotent`). -/
theorem normalizeChapterNumber_idempotent_on_clean (s : String)
    (h : (parseFloatNum (replaceChapterOnce (jsTrim s.data))).isSome = true ∨
      (parseFloatNum (replaceChapterOnce (jsTrim s.data)) = none ∧
        replaceChapterOnce (replaceChapterOnce (jsTrim s.data)) =
          replaceChapterOnce (jsTrim s.data) ∧
        jsTrim (replaceChapterOnce (jsTrim s.data)) =
          replaceChapterOnce (jsTrim s.data))) :
    normalizeChapterNumber (normalizeChapterNumber s) =
      normalizeChapterNumber s := by
  unfold normalizeChapterNumber
  have hdata : (String.mk (normChapterList s.data)).data =
      normChapterList s.data := rfl
  rw [hdata, normChapterList_idem h]

/-- Witness for C3 (amended), at the numeric input "Chapter 10.5". -/
theorem normalizeChapterNumber_idempotent_on_clean_witness :
    normalizeChapterNumber (normalizeChapterNumber "Chapter 10.5") =
      normalizeChapterNumber "Chapter 10.5" :=
  normalizeChapterNumber_idempotent_on_clean "Chapter 10.5"
    (Or.inl (by decide))

/-! ## Scraped data records (src/lib/scrapers/types.ts) -/

/-- `ScrapedChapter` from types.ts.  `publishedAt` (a JS `Date`) is
modelled as an optional epoch value. -/
structure ScrapedChapter where
  number : String
  title : Option String
  volume : Option String
  sourceId : String
  sourceUrl : String
  publishedAt : Option Int
  pages : Option Nat
  translatedLanguage : Option String
  scanlationGroup : Option String
deriving DecidableEq, Repr

/-- `ScrapedManga` from types.ts. -/
structure ScrapedManga where
  title : String
  alternativeTitles : Option (List String)
  author : Option String
  artist : Option String
  description : Option String
  coverImage : Option String
  genres : Option (List String)
  status : Option MangaStatus
  sourceId : String
  sourceUrl : String
deriving DecidableEq, Repr

/-! ## C4: the latest-chapter pointer update in updateMangaChapters
(src/lib/scrapers/scraper-service.ts, lines 215-231) -/

/-- The cached `latestChapter` pointer on a Manga document (the
`updatedAt` timestamp is not modelled). -/
structure LatestChapter where
  number : String
  title : Option String
  source : String
deriving DecidableEq, Repr

/-- JavaScript `a > b` on two `parseFloat` results: `false` whenever
either side is NaN. -/
def jsGtFloat (a b : Option JSNum) : Bool :=
  match a, b with
  | some x, some y => jsNumLt y x
  | _, _ => false

/-- The per-source pointer update step of `updateMangaChapters`: with a
non-empty fetched list, take its first element and replace the cached
pointer when no pointer exists or `parseFloat(latest.number) >
parseFloat(cached.number)`. -/
def updateLatestPointer (cur : Option LatestChapter)
    (latestChapters : List ScrapedChapter) (source : String) :
    Option LatestChapter :=
  match latestChapters with
  | [] => cur
  | latest :: _ =>
    match cur with
    | none => some ⟨latest.number, latest.title, source⟩
    | some c =>
      if jsGtFloat (parseFloatNum latest.number.data)
          (parseFloatNum c.number.data) then
        some ⟨latest.number, latest.title, source⟩
      else cur

/-- The per-source loop of `updateMangaChapters` restricted to the
pointer it maintains: a failing source is caught and skipped, a
successful fetch feeds `updateLatestPointer`. -/
def updateMangaChaptersPointer (cur : Option LatestChapter)
    (results : List (String × Except String (List ScrapedChapter))) :
    Option LatestChapter :=
  results.foldl
    (fun acc r =>
      match r.2 with
      | .error _ => acc
      | .ok chs => updateLatestPointer acc chs r.1)
    cur

theorem toRat_eq_div (n : JSNum) :
    n.toRat = (n.numInt : ℚ) / (n.denNat : ℚ) := by
  unfold JSNum.toRat JSNum.numInt JSNum.denNat
  have hden : ((10 : ℚ)) ^ n.fracPart.length ≠ 0 := by positivity
  cases hneg : n.neg <;> push_cast <;> field_simp

theorem jsNumLt_iff (a b : JSNum) :
    jsNumLt a b = true ↔ a.toRat < b.toRat := by
  rw [toRat_eq_div, toRat_eq_div, jsNumLt, decide_eq_true_eq]
  have hda : (0 : ℚ) < (a.denNat : ℚ) := by
    unfold JSNum.denNat; positivity
  have hdb : (0 : ℚ) < (b.denNat : ℚ) := by
    unfold JSNum.denNat; positivity
  rw [div_lt_div_iff₀ hda hdb]
  constructor <;> intro h <;> exact_mod_cast h

/-- C4: in `updateMangaChapters`, when a source's latest-units fetch
succeeds with a non-empty list, the cached pointer is replaced exactly
when no pointer is cached yet or the newly observed number, parsed as a
number, is strictly greater than the cached one (both assumed
numeric). -/
theorem updateLatestPointer_strict_increase
    (c : LatestChapter) (latest : ScrapedChapter)
    (rest : List ScrapedChapter) (src : String) (n1 n2 : JSNum)
    (h1 : parseFloatNum c.number.data = some n1)
    (h2 : parseFloatNum latest.number.data = some n2) :
    (updateLatestPointer (some c) (latest :: rest) src =
      if n1.toRat < n2.toRat then some ⟨latest.number, latest.title, src⟩
      else some c) ∧
    updateLatestPointer none (latest :: rest) src =
      some ⟨latest.number, latest.title, src⟩ := by
  constructor
  · simp only [updateLatestPointer, jsGtFloat, h1, h2]
    by_cases hlt : n1.toRat < n2.toRat
    · rw [if_pos ((jsNumLt_iff n1 n2).mpr hlt), if_pos hlt]
    · have hb : jsNumLt n1 n2 = false := by
        cases hbv : jsNumLt n1 n2
        · rfl
        · exact absurd ((jsNumLt_iff n1 n2).mp hbv) hlt
      rw [hb]
      simp [hlt]
  · rfl

/-- Witness for C4: cached "10" with observed "9" leaves the pointer
unchanged; observed "10.5" advances it. -/
theorem updateLatestPointer_strict_increase_witness :
    updateLatestPointer (some ⟨"10", none, "mangadex"⟩)
        [⟨"9", none, none, "c1", "u1", none, none, none, none⟩]
        "mangadex" = some ⟨"10", none, "mangadex"⟩ ∧
    updateLatestPointer (some ⟨"10", none, "mangadex"⟩)
        [⟨"10.5", none, none, "c1", "u1", none, none, none, none⟩]
        "mangadex" = some ⟨"10.5", none, "mangadex"⟩ := by
  have d10 : digitsToNat ['1', '0'] = 10 := by decide
  have d9 : digitsToNat ['9'] = 9 := by decide
  have d5 : digitsToNat ['5'] = 5 := by decide
  have d0 : digitsToNat ([] : List Char) = 0 := rfl
  have t10 : JSNum.toRat ⟨false, ['1', '0'], []⟩ = 10 := by
    simp [JSNum.toRat, d10, d0]
  have t9 : JSNum.toRat ⟨false, ['9'], []⟩ = 9 := by
    simp [JSNum.toRat, d9, d0]
  have t105 : JSNum.toRat ⟨false, ['1', '0'], ['5']⟩ = 21 / 2 := by
    simp only [JSNum.toRat, d10, d5, List.length_cons, List.length_nil]
    norm_num
  constructor
  · rw [(updateLatestPointer_strict_increase ⟨"10", none, "mangadex"⟩
      ⟨"9", none, none, "c1", "u1", none, none, none, none⟩ [] "mangadex"
      ⟨false, ['1', '0'], []⟩ ⟨false, ['9'], []⟩
      (by decide) (by decide)).1, t10, t9]
    rw [if_neg (by norm_num)]
  · rw [(updateLatestPointer_strict_increase ⟨"10", none, "mangadex"⟩
      ⟨"10.5", none, none, "c1", "u1", none, none, none, none⟩ []
      "mangadex" ⟨false, ['1', '0'], []⟩ ⟨false, ['1', '0'], ['5']⟩
      (by decide) (by decide)).1, t10, t105]
    rw [if_pos (by norm_num)]

/-! ## makeRequest (src/lib/scrapers/utils.ts, lines 46-83)

The axios call of attempt `k` is an oracle `tryAt k : Except String α`.
The model returns the backoff sleeps performed (in ms, in order)
alongside the final outcome, so the retry/backoff schedule is part of
the observable result. -/

/-- The retry loop of `makeRequest` from iteration `attempt` on.  On a
failure with attempts remaining it records a sleep of
`min (1000 * 2 ^ attempt) 10000` ms and retries; on the last attempt it
raises the exhaustion error carrying the URL and the last cause.  The
final branch is the unreachable `throw` after the loop. -/
def makeRequestGo (url : String) (tryAt : Nat → Except String α)
    (maxRetries : Nat) (attempt : Nat) : List Nat × Except String α :=
  if h : attempt ≤ maxRetries then
    match tryAt attempt with
    | .ok v => ([], .ok v)
    | .error e =>
      if he : attempt = maxRetries then
        ([], .error ("Failed to fetch " ++ url ++ " after " ++
          toString (maxRetries + 1) ++ " attempts: " ++ e))
      else
        let r := makeRequestGo url tryAt maxRetries (attempt + 1)
        (min (1000 * 2 ^ attempt) 10000 :: r.1, r.2)
  else ([], .error ("Failed to fetch " ++ url))
termination_by maxRetries + 1 - attempt
decreasing_by omega

/-- `makeRequest`: `maxRetries = config?.retries ?? 3`, loop from
attempt 0. -/
def makeRequest (url : String) (tryAt : Nat → Except String α)
    (retries : Option Nat) : List Nat × Except String α :=
  makeRequestGo url tryAt (retries.getD 3) 0

theorem makeRequestGo_all_fail (url : String)
    (tryAt : Nat → Except String α) (R : Nat) :
    ∀ d attempt, attempt + d = R →
      (∀ k, attempt ≤ k → k ≤ R → ∃ e, tryAt k = .error e) →
      ∃ e, tryAt R = .error e ∧
        makeRequestGo url tryAt R attempt =
          ((List.range' attempt d).map
              (fun a => min (1000 * 2 ^ a) 10000),
            .error ("Failed to fetch " ++ url ++ " after " ++
              toString (R + 1) ++ " attempts: " ++ e)) := by
  intro d
  induction d with
  | zero =>
    intro attempt ha hf
    have haR : attempt = R := by omega
    subst haR
    obtain ⟨e, he⟩ := hf attempt le_rfl le_rfl
    refine ⟨e, he, ?_⟩
    unfold makeRequestGo
    rw [dif_pos le_rfl]
    simp only [he]
    simp [List.range']
  | succ n ih =>
    intro attempt ha hf
    obtain ⟨e, he⟩ := hf attempt le_rfl (by omega)
    obtain ⟨eR, heR, hgo⟩ :=
      ih (attempt + 1) (by omega) (fun k hk1 hk2 => hf k (by omega) hk2)
    refine ⟨eR, heR, ?_⟩
    have hne : attempt ≠ R := by omega
    unfold makeRequestGo
    rw [dif_pos (by omega)]
    simp only [he]
    rw [dif_neg hne]
    simp only [hgo]
    simp [List.range'_succ]

theorem makeRequestGo_first_success (url : String)
    (tryAt : Nat → Except String α) (R : Nat) (v : α) :
    ∀ d attempt j, attempt + d = j → j ≤ R →
      tryAt j = .ok v →
      (∀ k, attempt ≤ k → k < j → ∃ e, tryAt k = .error e) →
      makeRequestGo url tryAt R attempt =
        ((List.range' attempt d).map (fun a => min (1000 * 2 ^ a) 10000),
          .ok v) := by
  intro d
  induction d with
  | zero =>
    intro attempt j ha hj hok hf
    have haj : attempt = j := by omega
    subst haj
    unfold makeRequestGo
    rw [dif_pos (by omega)]
    simp only [hok]
    simp [List.range']
  | succ n ih =>
    intro attempt j ha hj hok hf
    obtain ⟨e, he⟩ := hf attempt le_rfl (by omega)
    have hih := ih (attempt + 1) j (by omega) hj hok
      (fun k h1 h2 => hf k (by omega) h2)
    unfold makeRequestGo
    rw [dif_pos (by omega)]
    simp only [he]
    rw [dif_neg (by omega)]
    simp only [hih]
    simp [List.range'_succ]

/-- C6: `makeRequest` with maximum retry count `R` (default 3): on each
failed attempt with attempts remaining it sleeps exactly
`min (1000 * 2^attempt, 10000)` ms; after all `R + 1` attempts fail it
raises an error carrying the URL and the last cause; a successful
attempt returns that attempt's payload with no further retries. -/
theorem makeRequest_retry_spec (url : String)
    (tryAt : Nat → Except String α) (retries : Option Nat) (R : Nat)
    (hR : retries.getD 3 = R) :
    ((∀ k, k ≤ R → ∃ e, tryAt k = .error e) →
      ∃ e, tryAt R = .error e ∧
        makeRequest url tryAt retries =
          ((List.range R).map (fun a => min (1000 * 2 ^ a) 10000),
            .error ("Failed to fetch " ++ url ++ " after " ++
              toString (R + 1) ++ " attempts: " ++ e))) ∧
    (∀ j v, j ≤ R → tryAt j = .ok v →
      (∀ k, k < j → ∃ e, tryAt k = .error e) →
      makeRequest url tryAt retries =
        ((List.range j).map (fun a => min (1000 * 2 ^ a) 10000),
          .ok v)) := by
  constructor
  · intro hf
    obtain ⟨e, he, hgo⟩ := makeRequestGo_all_fail url tryAt R R 0
      (by omega) (fun k _ hk2 => hf k hk2)
    refine ⟨e, he, ?_⟩
    rw [makeRequest, hR, hgo, List.range_eq_range']
  · intro j v hj hok hf
    rw [makeRequest, hR,
      makeRequestGo_first_success url tryAt R v j 0 j (by omega) hj hok
        (fun k _ hk2 => hf k hk2),
      List.range_eq_range']

/-- Witness for C6: with every attempt failing, `makeRequest` (default
3 retries) sleeps 1000, 2000, 4000 ms and reports all 4 attempts with
the last cause; with success on attempt 2 it sleeps 1000, 2000 ms and
returns the payload. -/
theorem makeRequest_retry_spec_witness :
    makeRequest "https://x" (fun _ => (.error "boom" : Except String Nat))
        none = ([1000, 2000, 4000],
          .error "Failed to fetch https://x after 4 attempts: boom") ∧
    makeRequest "https://x"
        (fun k => if k = 2 then (.ok 42 : Except String Nat)
          else .error "boom") none = ([1000, 2000], .ok 42) := by
  constructor
  · obtain ⟨e, he, hgo⟩ :=
      (makeRequest_retry_spec "https://x"
        (fun _ => (.error "boom" : Except String Nat)) none 3 rfl).1
        (fun k _ => ⟨"boom", rfl⟩)
    have he2 : e = "boom" := by
      simpa using he.symm
    rw [hgo, he2]
    rfl
  · rw [(makeRequest_retry_spec "https://x"
      (fun k => if k = 2 then (.ok 42 : Except String Nat)
        else .error "boom") none 3 rfl).2 2 42 (by omega) rfl
      (fun k hk => ⟨"boom", by interval_cases k <;> rfl⟩)]
    rfl

/-! ## MangaDexScraper.fetchAllChapters
(src/lib/scrapers/mangadex.ts, lines 151-192) -/

/-- The pagination loop of `fetchAllChapters`.  Page requests are an
oracle `fetch offset`; the page size is 500.  A failed request breaks
the loop, returning what was accumulated; a page is always appended,
and a short page ends the loop after being appended; otherwise the
offset advances by the page size.  `fuel` bounds the iteration count
(the source loop is `while (true)`); theorems supply enough fuel to
reach the terminating page. -/
def fetchAllChaptersGo
    (fetch : Nat → Except String (List ScrapedChapter)) :
    Nat → Nat → List ScrapedChapter → List ScrapedChapter
  | 0, _, acc => acc
  | fuel + 1, offset, acc =>
    match fetch offset with
    | .error _ => acc
    | .ok page =>
      if page.length < 500 then acc ++ page
      else fetchAllChaptersGo fetch fuel (offset + 500) (acc ++ page)

/-- `fetchAllChapters`: offsets start at 0, accumulator starts empty. -/
def fetchAllChapters
    (fetch : Nat → Except String (List ScrapedChapter)) (fuel : Nat) :
    List ScrapedChapter :=
  fetchAllChaptersGo fetch fuel 0 []

theorem fetchAllChaptersGo_spec
    (fetch : Nat → Except String (List ScrapedChapter))
    (pages : Nat → List ScrapedChapter) (n : Nat) :
    ∀ fuel i acc, i ≤ n → n - i < fuel →
      (∀ k, i ≤ k → k < n →
        fetch (500 * k) = .ok (pages k) ∧ (pages k).length = 500) →
      (∀ p, fetch (500 * n) = .ok p → p.length < 500 →
        fetchAllChaptersGo fetch fuel (500 * i) acc =
          acc ++ ((List.range' i (n - i)).map pages).flatten ++ p) ∧
      (∀ e, fetch (500 * n) = .error e →
        fetchAllChaptersGo fetch fuel (500 * i) acc =
          acc ++ ((List.range' i (n - i)).map pages).flatten) := by
  intro fuel
  induction fuel with
  | zero => intro i acc hi hfuel hfull; omega
  | succ fuel ih =>
    intro i acc hi hfuel hfull
    by_cases hin : i = n
    · subst hin
      constructor
      · intro p hok hshort
        unfold fetchAllChaptersGo
        simp only [hok]
        rw [if_pos hshort]
        simp
      · intro e herr
        unfold fetchAllChaptersGo
        simp only [herr]
        simp
    · have hilt : i < n := by omega
      obtain ⟨hok, hlen⟩ := hfull i le_rfl hilt
      have hoff : 500 * i + 500 = 500 * (i + 1) := by ring
      have hih := ih (i + 1) (acc ++ pages i) (by omega) (by omega)
        (fun k h1 h2 => hfull k (by omega) h2)
      have hrange : List.range' i (n - i) = i :: List.range' (i + 1) (n - (i + 1)) := by
        have : n - i = (n - (i + 1)) + 1 := by omega
        rw [this, List.range'_succ]
      constructor
      · intro p hokp hshort
        unfold fetchAllChaptersGo
        simp only [hok]
        rw [if_neg (by omega), hoff, (hih.1 p hokp hshort), hrange]
        simp
      · intro e herr
        unfold fetchAllChaptersGo
        simp only [hok]
        rw [if_neg (by omega), hoff, (hih.2 e herr), hrange]
        simp

/-- C5: the full chapter listing requests pages at offsets 0, 500,
1000, ... (page size 500), concatenates them in that order, stops after
the first page shorter than 500, and on a failed page request stops
and returns everything accumulated so far. -/
theorem fetchAllChapters_paginates
    (fetch : Nat → Except String (List ScrapedChapter))
    (pages : Nat → List ScrapedChapter) (n fuel : Nat) (hfuel : n < fuel)
    (hfull : ∀ k, k < n →
      fetch (500 * k) = .ok (pages k) ∧ (pages k).length = 500) :
    (∀ p, fetch (500 * n) = .ok p → p.length < 500 →
      fetchAllChapters fetch fuel =
        ((List.range n).map pages).flatten ++ p) ∧
    (∀ e, fetch (500 * n) = .error e →
      fetchAllChapters fetch fuel =
        ((List.range n).map pages).flatten) := by
  have h := fetchAllChaptersGo_spec fetch pages n fuel 0 []
    (by omega) (by omega) (fun k _ h2 => hfull k h2)
  constructor
  · intro p hok hshort
    have := h.1 p hok hshort
    rw [fetchAllChapters]
    rw [show (0 : Nat) = 500 * 0 by ring] at this ⊢
    rw [this, List.range_eq_range']
    simp
  · intro e herr
    have := h.2 e herr
    rw [fetchAllChapters]
    rw [show (0 : Nat) = 500 * 0 by ring] at this ⊢
    rw [this, List.range_eq_range']
    simp

set_option maxRecDepth 4000 in
/-- Witness for C5: 500 items at offset 0 followed by 3 items at
offset 500 yields exactly 503 chapters. -/
theorem fetchAllChapters_paginates_witness :
    (fetchAllChapters
      (fun off =>
        if off = 0 then
          .ok (List.replicate 500
            ⟨"1", none, none, "id", "url", none, none, none, none⟩)
        else
          .ok (List.replicate 3
            ⟨"1", none, none, "id", "url", none, none, none, none⟩))
      2).length = 503 := by
  have h := (fetchAllChapters_paginates
    (fun off =>
      if off = 0 then
        .ok (List.replicate 500
          ⟨"1", none, none, "id", "url", none, none, none, none⟩)
      else
        .ok (List.replicate 3
          ⟨"1", none, none, "id", "url", none, none, none, none⟩))
    (fun k =>
      if k = 0 then
        List.replicate 500
          ⟨"1", none, none, "id", "url", none, none, none, none⟩
      else
        List.replicate 3
          ⟨"1", none, none, "id", "url", none, none, none, none⟩)
    1 2 (by omega)
    (fun k hk => by
      interval_cases k
      refine ⟨rfl, ?_⟩
      show (List.replicate 500
        (⟨"1", none, none, "id", "url", none, none, none,
          none⟩ : ScrapedChapter)).length = 500
      rw [List.length_replicate])).1
    (List.replicate 3 ⟨"1", none, none, "id", "url", none, none, none, none⟩)
    rfl (by rw [List.length_replicate]; omega)
  rw [h, List.length_append]
  show ((List.replicate 500
      (⟨"1", none, none, "id", "url", none, none, none,
        none⟩ : ScrapedChapter) ++ [])).length +
    (List.replicate 3
      (⟨"1", none, none, "id", "url", none, none, none,
        none⟩ : ScrapedChapter)).length = 503
  rw [List.append_nil, List.length_replicate, List.length_replicate]

/-! ## Adapter operations and error containment
(src/lib/scrapers/mangadex.ts, src/lib/scrapers/weebcentral.ts)

Each operation's network-and-parse work is an `Except` oracle; the
adapter code decides what is caught and what propagates. -/

/-- `SearchResult` from types.ts. -/
structure SearchResult where
  sourceId : String
  title : String
  coverImage : Option String
  sourceUrl : String
deriving DecidableEq, Repr

/-- `MangaWithChapters` from types.ts. -/
structure MangaWithChapters where
  manga : ScrapedManga
  chapters : List ScrapedChapter
deriving DecidableEq, Repr

/-- MangaDex `searchManga` (lines 28-51): the try-block (request plus
mapping) is the oracle; any failure is caught and degrades to `[]`. -/
def mdSearchManga (attempt : Except String (List SearchResult)) :
    Except String (List SearchResult) :=
  match attempt with
  | .ok l => .ok l
  | .error _ => .ok []

/-- MangaDex `getLatestChapters` (lines 70-97): failures are caught and
degrade to `[]` (the limit is part of the request). -/
def mdGetLatestChapters (attempt : Except String (List ScrapedChapter)) :
    Except String (List ScrapedChapter) :=
  match attempt with
  | .ok l => .ok l
  | .error _ => .ok []

/-- MangaDex `getRecentUpdates` (lines 102-126): failures are caught
and degrade to `[]`. -/
def mdGetRecentUpdates (attempt : Except String (List SearchResult)) :
    Except String (List SearchResult) :=
  match attempt with
  | .ok l => .ok l
  | .error _ => .ok []

/-- MangaDex `getMangaDetails` (lines 56-65): `fetchMangaInfo` has no
catch and may propagate; `fetchAllChapters` catches internally. -/
def mdGetMangaDetails (infoAttempt : Except String ScrapedManga)
    (chapterFetch : Nat → Except String (List ScrapedChapter))
    (fuel : Nat) : Except String MangaWithChapters :=
  match infoAttempt with
  | .error e => .error e
  | .ok m => .ok ⟨m, fetchAllChapters chapterFetch fuel⟩

/-- WeebCentral `searchManga` (weebcentral.ts lines 29-58): primary
attempt, then the alternate query-string attempt, then `[]`. -/
def wcSearchManga (primary alt : Except String (List SearchResult)) :
    Except String (List SearchResult) :=
  match primary with
  | .ok l => .ok l
  | .error _ =>
    match alt with
    | .ok l => .ok l
    | .error _ => .ok []

/-- WeebCentral `getMangaDetails` (lines 63-87): the catch block
rethrows, so a failure propagates. -/
def wcGetMangaDetails (attempt : Except String MangaWithChapters) :
    Except String MangaWithChapters :=
  match attempt with
  | .ok r => .ok r
  | .error e => .error e

/-- WeebCentral `getLatestChapters` (lines 92-98): delegates to
`getMangaDetails` with no catch of its own, then slices to `limit`. -/
def wcGetLatestChapters (attempt : Except String MangaWithChapters)
    (limit : Nat) : Except String (List ScrapedChapter) :=
  match wcGetMangaDetails attempt with
  | .ok r => .ok (r.chapters.take limit)
  | .error e => .error e

/-- The URL loop of WeebCentral `getRecentUpdates` (lines 103-134): a
failing or empty candidate URL falls through to the next, `[]` after
the last. -/
def wcRecentGo (limit : Nat) :
    List (Except String (List SearchResult)) → List SearchResult
  | [] => []
  | a :: rest =>
    match a with
    | .error _ => wcRecentGo limit rest
    | .ok l => if 0 < l.length then l.take limit else wcRecentGo limit rest

/-- WeebCentral `getRecentUpdates` with its outer catch: it can only
return successfully. -/
def wcGetRecentUpdates
    (attempts : List (Except String (List SearchResult))) (limit : Nat) :
    Except String (List SearchResult) :=
  .ok (wcRecentGo limit attempts)

/-- C2 counterexample: WeebCentral's `getLatestChapters` has no catch;
a failing underlying fetch propagates out of it instead of degrading to
an empty list, contradicting the claim that only `getMangaDetails` may
propagate. -/
theorem wcGetLatestChapters_propagates :
    wcGetLatestChapters (Except.error "network down") 10 =
      Except.error "network down" ∧
    wcGetLatestChapters (Except.error "network down") 10 ≠
      Except.ok [] :=
  ⟨rfl, fun h => Except.noConfusion h⟩

/-- C2 (amended): on MangaDex, `searchManga`, `getLatestChapters` and
`getRecentUpdates` catch any failure and return `[]`; on WeebCentral,
`searchManga` (with its two-tier fallback) and `getRecentUpdates` do
the same; WeebCentral's `getLatestChapters` however delegates to
`getMangaDetails` and propagates its failure, and `getMangaDetails`
may propagate on both adapters. -/
theorem adapter_error_containment :
    (∀ e : String, mdSearchManga (.error e) = .ok []) ∧
    (∀ e : String, mdGetLatestChapters (.error e) = .ok []) ∧
    (∀ e : String, mdGetRecentUpdates (.error e) = .ok []) ∧
    (∀ e e' : String, wcSearchManga (.error e) (.error e') = .ok []) ∧
    (∀ attempts limit,
      ∃ l, wcGetRecentUpdates attempts limit = .ok l) ∧
    (∀ (e : String) (limit : Nat),
      wcGetLatestChapters (.error e) limit = .error e) ∧
    (∀ (e : String) (chapterFetch : Nat → Except String (List ScrapedChapter))
        (fuel : Nat),
      mdGetMangaDetails (.error e) chapterFetch fuel = .error e) ∧
    (∀ e : String, wcGetMangaDetails (.error e) = .error e) :=
  ⟨fun _ => rfl, fun _ => rfl, fun _ => rfl, fun _ _ => rfl,
    fun attempts limit => ⟨wcRecentGo limit attempts, rfl⟩,
    fun _ _ => rfl, fun _ _ _ => rfl, fun _ => rfl⟩

/-! ## C7: ScraperService.searchAllSources
(src/lib/scrapers/scraper-service.ts, lines 38-56) -/

/-- `searchAllSources`: fan the query out to every registered scraper;
a throwing scraper contributes `[]` for its key, a succeeding one its
result list.  The registration list plays the scrapers `Map` in
insertion order; each scraper's search outcome is its oracle. -/
def searchAllSources
    (scrapers : List (String × (String → Except String (List SearchResult))))
    (query : String) : List (String × List SearchResult) :=
  scrapers.map (fun p =>
    (p.1,
      match p.2 query with
      | .ok l => l
      | .error _ => []))

/-- C7: `searchAllSources` is total (it never raises because of an
adapter failure), keys the result by source name with one entry per
registered adapter, and gives each succeeding adapter its result list
and each throwing adapter `[]`. -/
theorem searchAllSources_isolates_failures
    (scrapers : List (String × (String → Except String (List SearchResult))))
    (query : String) :
    ((searchAllSources scrapers query).map Prod.fst =
      scrapers.map Prod.fst) ∧
    ∀ name f, (name, f) ∈ scrapers →
      (∀ l, f query = .ok l →
        (name, l) ∈ searchAllSources scrapers query) ∧
      (∀ e, f query = .error e →
        (name, []) ∈ searchAllSources scrapers query) := by
  constructor
  · simp [searchAllSources, List.map_map, Function.comp]
  · intro name f hm
    constructor
    · intro l hl
      have hmem := List.mem_map_of_mem
        (fun p : String × (String → Except String (List SearchResult)) =>
          (p.1,
            match p.2 query with
            | .ok l => l
            | .error _ => [])) hm
      rw [searchAllSources]
      simpa [hl] using hmem
    · intro e he
      have hmem := List.mem_map_of_mem
        (fun p : String × (String → Except String (List SearchResult)) =>
          (p.1,
            match p.2 query with
            | .ok l => l
            | .error _ => [])) hm
      rw [searchAllSources]
      simpa [he] using hmem

/-- Witness for C7: adapter A succeeds with 2 results and adapter B
throws; the map holds A's two results and `[]` for B. -/
theorem searchAllSources_isolates_failures_witness :
    ("A", [(⟨"k1", "Kingdom", none, "u1"⟩ : SearchResult),
        ⟨"k2", "Kingdom 2", none, "u2"⟩]) ∈
      searchAllSources
        [("A", fun _ => .ok [⟨"k1", "Kingdom", none, "u1"⟩,
            ⟨"k2", "Kingdom 2", none, "u2"⟩]),
          ("B", fun _ => .error "boom")] "Kingdom" ∧
    ("B", []) ∈
      searchAllSources
        [("A", fun _ => .ok [(⟨"k1", "Kingdom", none, "u1"⟩ : SearchResult),
            ⟨"k2", "Kingdom 2", none, "u2"⟩]),
          ("B", fun _ => .error "boom")] "Kingdom" := by
  constructor
  · exact ((searchAllSources_isolates_failures _ "Kingdom").2 "A" _
      (List.mem_cons_self _ _)).1 _ rfl
  · exact ((searchAllSources_isolates_failures _ "Kingdom").2 "B" _
      (List.mem_cons_of_mem _ (List.mem_cons_self _ _))).2 "boom" rfl

/-! ## importManga and the in-memory store
(src/lib/scrapers/scraper-service.ts, lines 76-150)

The mongoose `Manga` model itself is not under src/.  Modelled from the
spec: the storage collaborator of spec section 6 (`findWorkBySource`,
`createWork`, `saveWork`) is an in-memory list of Manga documents;
`findOne` on the binding returns the first document carrying a binding
for the requested `(sourceName, sourceId)` (section 3, Binding), `save`
updates that document in place, `create` appends. -/

/-- A source binding on a Manga document. -/
structure SourceRef where
  name : String
  id : String
  url : String
deriving DecidableEq, Repr

/-- Modelled from the spec: a persisted Manga document (TrackedWork,
spec section 3) — descriptive fields, the binding set, and the cached
latest-chapter pointer. -/
structure MangaDoc where
  title : String
  alternativeTitles : Option (List String)
  author : Option String
  artist : Option String
  description : Option String
  coverImage : Option String
  genres : Option (List String)
  status : Option MangaStatus
  sources : List SourceRef
  latestChapter : Option LatestChapter
deriving DecidableEq, Repr

/-- Does a document bind `(source, sid)`? -/
def bindsTo (source sid : String) (w : MangaDoc) : Bool :=
  w.sources.any (fun r => r.name == source && r.id == sid)

/-- Modelled from the spec: `findOne` followed by mutation and `save`
updates the first matching document in place; `none` when no document
matches. -/
def updateFirst (p : MangaDoc → Bool) (f : MangaDoc → MangaDoc) :
    List MangaDoc → Option (List MangaDoc)
  | [] => none
  | w :: rest =>
    if p w then some (f w :: rest)
    else (updateFirst p f rest).map (w :: ·)

/-- The update branch of `importManga` (lines 93-115): overwrite the
descriptive fields and, when the chapter list is non-empty, the cached
latest-chapter pointer with the last element; all other fields (in
particular `sources`) are left as they are. -/
def applyImportUpdate (source : String) (m : ScrapedManga)
    (chapters : List ScrapedChapter) (w : MangaDoc) : MangaDoc :=
  { w with
    title := m.title
    alternativeTitles := m.alternativeTitles
    author := m.author
    artist := m.artist
    description := m.description
    coverImage := m.coverImage
    genres := m.genres
    status := m.status
    latestChapter :=
      match chapters.getLast? with
      | some latest => some ⟨latest.number, latest.title, source⟩
      | none => w.latestChapter }

/-- The create branch of `importManga` (lines 117-143): a new document
bound to exactly this one source. -/
def newMangaDoc (source sid : String) (m : ScrapedManga)
    (chapters : List ScrapedChapter) : MangaDoc :=
  { title := m.title
    alternativeTitles := m.alternativeTitles
    author := m.author
    artist := m.artist
    description := m.description
    coverImage := m.coverImage
    genres := m.genres
    status := m.status
    sources := [⟨source, sid, m.sourceUrl⟩]
    latestChapter :=
      match chapters.getLast? with
      | some latest => some ⟨latest.number, latest.title, source⟩
      | none => none }

/-- `importManga` on the store: find a document bound to the identity,
update it if found, create one otherwise.  (Chapter rows live in a
separate collection and are outside C1/C10.) -/
def importManga (db : List MangaDoc) (source sid : String)
    (fetched : MangaWithChapters) : List MangaDoc :=
  match updateFirst (bindsTo source sid)
      (applyImportUpdate source fetched.manga fetched.chapters) db with
  | some db2 => db2
  | none => db ++ [newMangaDoc source sid fetched.manga fetched.chapters]

theorem updateFirst_eq_none {p : MangaDoc → Bool} {f : MangaDoc → MangaDoc} :
    ∀ {db : List MangaDoc}, updateFirst p f db = none →
      ∀ w ∈ db, p w = false := by
  intro db
  induction db with
  | nil =>
    intro _ w hw
    simp at hw
  | cons a rest ih =>
    intro h w hw
    unfold updateFirst at h
    by_cases hp : p a = true
    · rw [if_pos hp] at h
      exact Option.noConfusion h
    · rw [if_neg hp] at h
      rcases List.mem_cons.mp hw with rfl | hw2
      · exact Bool.eq_false_iff.mpr hp
      · cases hu : updateFirst p f rest with
        | none => exact ih hu w hw2
        | some d2 =>
          rw [hu] at h
          simp at h

theorem updateFirst_eq_some {p : MangaDoc → Bool} {f : MangaDoc → MangaDoc} :
    ∀ {db db2 : List MangaDoc}, updateFirst p f db = some db2 →
      ∃ l1 w l2, db = l1 ++ w :: l2 ∧ (∀ x ∈ l1, p x = false) ∧
        p w = true ∧ db2 = l1 ++ f w :: l2 := by
  intro db
  induction db with
  | nil =>
    intro db2 h
    exact Option.noConfusion h
  | cons a rest ih =>
    intro db2 h
    unfold updateFirst at h
    by_cases hp : p a = true
    · rw [if_pos hp, Option.some.injEq] at h
      exact ⟨[], a, rest, by simp, by simp, hp, by simp [← h]⟩
    · rw [if_neg hp] at h
      cases hu : updateFirst p f rest with
      | none =>
        rw [hu] at h
        simp at h
      | some d2 =>
        rw [hu] at h
        simp only [Option.map_some', Option.some.injEq] at h
        obtain ⟨l1, w, l2, hdb, hl1, hw, hd2⟩ := ih hu
        refine ⟨a :: l1, w, l2, by simp [hdb], ?_, hw, by simp [← h, hd2]⟩
        intro x hx
        rcases List.mem_cons.mp hx with rfl | hx2
        · exact Bool.eq_false_iff.mpr hp
        · exact hl1 x hx2

theorem bindsTo_applyImportUpdate (source sid s2 : String)
    (m : ScrapedManga) (cs : List ScrapedChapter) (w : MangaDoc) :
    bindsTo source sid (applyImportUpdate s2 m cs w) =
      bindsTo source sid w := rfl

theorem bindsTo_newMangaDoc (source sid : String) (m : ScrapedManga)
    (cs : List ScrapedChapter) :
    bindsTo source sid (newMangaDoc source sid m cs) = true := by
  simp [bindsTo, newMangaDoc]

theorem importManga_normalizes (db : List MangaDoc) (source sid : String)
    (f : MangaWithChapters)
    (hinv : (db.filter (bindsTo source sid)).length ≤ 1) :
    ((importManga db source sid f).filter (bindsTo source sid)).length
        = 1 ∧
    ∀ w ∈ (importManga db source sid f).filter (bindsTo source sid),
      w.title = f.manga.title ∧
      w.alternativeTitles = f.manga.alternativeTitles ∧
      w.author = f.manga.author ∧
      w.artist = f.manga.artist ∧
      w.description = f.manga.description ∧
      w.coverImage = f.manga.coverImage ∧
      w.genres = f.manga.genres ∧
      w.status = f.manga.status := by
  unfold importManga
  cases hu : updateFirst (bindsTo source sid)
      (applyImportUpdate source f.manga f.chapters) db with
  | none =>
    have hall := updateFirst_eq_none hu
    have h1 : db.filter (bindsTo source sid) = [] := by
      rw [List.filter_eq_nil_iff]
      intro a ha
      simp [hall a ha]
    rw [List.filter_append, h1,
      List.filter_cons_of_pos (bindsTo_newMangaDoc source sid _ _)]
    constructor
    · simp
    · intro w hw
      simp only [List.nil_append, List.filter_nil, List.mem_singleton] at hw
      subst hw
      exact ⟨rfl, rfl, rfl, rfl, rfl, rfl, rfl, rfl⟩
  | some db2 =>
    obtain ⟨l1, w, l2, hdb, hl1, hw, hd2⟩ := updateFirst_eq_some hu
    have hf1 : l1.filter (bindsTo source sid) = [] := by
      rw [List.filter_eq_nil_iff]
      intro a ha
      simp [hl1 a ha]
    have hf2 : l2.filter (bindsTo source sid) = [] := by
      rw [hdb, List.filter_append, List.filter_cons_of_pos hw, hf1,
        List.nil_append] at hinv
      simp only [List.length_cons] at hinv
      have : (l2.filter (bindsTo source sid)).length = 0 := by omega
      exact List.length_eq_zero.mp this
    have hgw : bindsTo source sid
        (applyImportUpdate source f.manga f.chapters w) = true := by
      rw [bindsTo_applyImportUpdate]
      exact hw
    rw [hd2, List.filter_append, List.filter_cons_of_pos hgw, hf1, hf2,
      List.nil_append]
    constructor
    · simp
    · intro x hx
      simp only [List.mem_singleton] at hx
      subst hx
      exact ⟨rfl, rfl, rfl, rfl, rfl, rfl, rfl, rfl⟩

/-- C1: importing the same `(source, sourceId)` twice with different
payloads leaves exactly one document bound to that identity, and its
descriptive fields (title, alternativeTitles, author, artist,
description, coverImage, genres, status) all come from the
second import — last-write-wins, no field-level merge.  The hypothesis is the
store invariant that at most one document binds the identity. -/
theorem importManga_twice_last_write_wins (db : List MangaDoc)
    (source sid : String) (f1 f2 : MangaWithChapters)
    (hinv : (db.filter (bindsTo source sid)).length ≤ 1) :
    (((importManga (importManga db source sid f1) source sid f2).filter
        (bindsTo source sid)).length = 1) ∧
    ∀ w ∈ (importManga (importManga db source sid f1) source sid
        f2).filter (bindsTo source sid),
      w.title = f2.manga.title ∧
      w.alternativeTitles = f2.manga.alternativeTitles ∧
      w.author = f2.manga.author ∧
      w.artist = f2.manga.artist ∧
      w.description = f2.manga.description ∧
      w.coverImage = f2.manga.coverImage ∧
      w.genres = f2.manga.genres ∧
      w.status = f2.manga.status :=
  importManga_normalizes _ source sid f2
    (le_of_eq (importManga_normalizes db source sid f1 hinv).1)

/-- Witness for C1: two imports of ("mangadex", "X") into an empty
store with different titles. -/
theorem importManga_twice_last_write_wins_witness :
    (((importManga (importManga [] "mangadex" "X"
        ⟨⟨"Old Title", none, none, none, none, none, none, none,
          "X", "u"⟩, []⟩) "mangadex" "X"
        ⟨⟨"New Title", none, some "A. Author", none, none, none, none,
          none, "X", "u"⟩, []⟩).filter
        (bindsTo "mangadex" "X")).length = 1) ∧
    ∀ w ∈ (importManga (importManga [] "mangadex" "X"
        ⟨⟨"Old Title", none, none, none, none, none, none, none,
          "X", "u"⟩, []⟩) "mangadex" "X"
        ⟨⟨"New Title", none, some "A. Author", none, none, none, none,
          none, "X", "u"⟩, []⟩).filter (bindsTo "mangadex" "X"),
      w.title = "New Title" ∧
      w.alternativeTitles = none ∧
      w.author = some "A. Author" ∧
      w.artist = none ∧
      w.description = none ∧
      w.coverImage = none ∧
      w.genres = none ∧
      w.status = none :=
  importManga_twice_last_write_wins [] "mangadex" "X" _ _ (by simp)

/-- C10: when `importManga` takes the update branch (a document already
binds the requested identity), the bindings arrays of all documents are
left entirely unchanged — no binding is added, removed or reordered —
and no document is added or removed. -/
theorem importManga_update_frame (db : List MangaDoc)
    (source sid : String) (f : MangaWithChapters)
    (hfound : ∃ w ∈ db, bindsTo source sid w = true) :
    (importManga db source sid f).map MangaDoc.sources =
        db.map MangaDoc.sources ∧
    (importManga db source sid f).length = db.length := by
  unfold importManga
  cases hu : updateFirst (bindsTo source sid)
      (applyImportUpdate source f.manga f.chapters) db with
  | none =>
    obtain ⟨w, hw, hb⟩ := hfound
    rw [updateFirst_eq_none hu w hw] at hb
    exact Bool.noConfusion hb
  | some db2 =>
    obtain ⟨l1, w, l2, hdb, hl1, hw, hd2⟩ := updateFirst_eq_some hu
    rw [hd2, hdb]
    constructor
    · simp only [List.map_append, List.map_cons]
      rfl
    · simp

/-- Witness for C10: re-importing the only document's identity leaves
its bindings array untouched. -/
theorem importManga_update_frame_witness :
    (importManga
      [⟨"Old", none, none, none, none, none, none, none,
        [⟨"mangadex", "X", "u"⟩], none⟩] "mangadex" "X"
      ⟨⟨"New", none, none, none, none, none, none, none, "X", "u"⟩,
        []⟩).map MangaDoc.sources =
      [[⟨"mangadex", "X", "u"⟩]] ∧
    (importManga
      [⟨"Old", none, none, none, none, none, none, none,
        [⟨"mangadex", "X", "u"⟩], none⟩] "mangadex" "X"
      ⟨⟨"New", none, none, none, none, none, none, none, "X", "u"⟩,
        []⟩).length = 1 :=
  importManga_update_frame
    [⟨"Old", none, none, none, none, none, none, none,
      [⟨"mangadex", "X", "u"⟩], none⟩] "mangadex" "X"
    ⟨⟨"New", none, none, none, none, none, none, none, "X", "u"⟩, []⟩
    ⟨⟨"Old", none, none, none, none, none, none, none,
      [⟨"mangadex", "X", "u"⟩], none⟩, by simp, by simp [bindsTo]⟩

end MangaApp
